import Mathlib

/-!
Verification of the EDGAR server-log data processor
(`edgar_logs_processor.py`).

The development shallowly embeds the data-handling core of the script:
Python/pandas string primitives are modelled as executable functions on
`String`/`List Char`, pandas columns that may hold `NaN` are modelled as
`Option` fields, data frames as lists of records, and the network/file
oracles (download success, parse outcome) as explicit parameters.
-/

/- ## Python string primitives -/

/-- Python `str(x)` applied to a possibly-missing (`NaN`) cell: a missing
float cell renders as the string `nan`. -/
def pyStr : Option String → String
  | none => ("nan")
  | some s => s

/-- Characters of `l` strictly before the first occurrence of `sep`
(all of `l` if `sep` does not occur): Python `s.split(sep)[0]`. -/
def charsBeforeFirst (sep : Char) (l : List Char) : List Char :=
  l.takeWhile (fun c => c ≠ sep)

/-- Python `s.split(sep)[0]` for a single-character separator. -/
def beforeFirst (sep : Char) (s : String) : String :=
  ⟨charsBeforeFirst sep s.toList⟩

/-- Characters of `l` strictly after the last occurrence of `sep`
(all of `l` if `sep` does not occur): Python `s.split(sep)[-1]`. -/
def charsAfterLast (sep : Char) (l : List Char) : List Char :=
  (l.reverse.takeWhile (fun c => c ≠ sep)).reverse

/-- Python `s.split(sep)[-1]` for a single-character separator. -/
def afterLast (sep : Char) (s : String) : String :=
  ⟨charsAfterLast sep s.toList⟩

/-- Python `s.replace('-', '')`: remove every dash. -/
def removeDashes (s : String) : String :=
  ⟨s.toList.filter (fun c => c ≠ '-')⟩

/-- Python `s[:-2]`: drop the final two characters (result is empty when
`s` has at most two characters). -/
def dropLast2 (s : String) : String :=
  ⟨s.toList.dropLast.dropLast⟩

/-- Python `s.lower()` (ASCII lowering, as used on file extensions). -/
def pyLower (s : String) : String :=
  ⟨s.toList.map Char.toLower⟩

/-- pandas `str.replace(r'\.0$', '')`: strip one trailing `.0` artifact. -/
def stripDot0 (s : String) : String :=
  if s.toList.reverse.take 2 = ['0', '.'] then ⟨s.toList.dropLast.dropLast⟩ else s

/-- Python `s.startswith(p)`. -/
def pyStartsWith (s p : String) : Bool :=
  p.toList.isPrefixOf s.toList

/-- pandas comparison `x < bound` on a float column: a missing (`NaN`)
value compares as `False`. -/
def pyLtNum (x : Option Int) (bound : Int) : Bool :=
  match x with
  | none => false
  | some c => decide (c < bound)

/-- Lexicographic comparison of character lists by code point, the order
Python and pandas use on strings. -/
def charListLt : List Char → List Char → Bool
  | [], [] => false
  | [], _ :: _ => true
  | _ :: _, [] => false
  | a :: as, b :: bs =>
    if a.toNat < b.toNat then true
    else if b.toNat < a.toNat then false
    else charListLt as bs

/-- String comparison used when modelling `sort_values`. -/
def pyStrLt (s t : String) : Bool :=
  charListLt s.toList t.toList

/-- pandas `drop_duplicates` / first-occurrence deduplication, with an
accumulator of already-seen values. -/
def dedupFirst {α : Type} [DecidableEq α] (seen : List α) : List α → List α
  | [] => []
  | x :: xs => if x ∈ seen then dedupFirst seen xs else x :: dedupFirst (x :: seen) xs

/-- pandas `drop_duplicates(keep='first')`. -/
def pyDropDuplicates {α : Type} [DecidableEq α] (l : List α) : List α :=
  dedupFirst [] l

/- ## IpFilter (`_load_target_ip_prefixes`, lines 42-60, and lines 91-93) -/

/-- The state of the configured IP allow-list input, as distinguished by
`_load_target_ip_prefixes`: no path configured, path configured but file
missing, file present but unreadable (the `except` branch), or a parsed
table with its column names and the values of its `netblock` column. -/
inductive IpListSource where
  | noPath
  | fileMissing
  | readFail
  | table (cols : List String) (netblocks : List (Option String))
deriving DecidableEq

/-- Line 55: `str(x).split('/')[0][:-2]` — the prefix derived from one
configured netblock entry. -/
def pfxOfNetblock (nb : String) : String :=
  dropLast2 (beforeFirst '/' nb)

/-- `_load_target_ip_prefixes` (lines 42-60): every failure mode yields
the empty list; a parsed table lacking a `netblock` column also yields the
empty list; otherwise each netblock value is reduced to a prefix. -/
def loadTargetIpPrefixes : IpListSource → List String
  | IpListSource.noPath => []
  | IpListSource.fileMissing => []
  | IpListSource.readFail => []
  | IpListSource.table cols netblocks =>
    if ("netblock") ∈ cols then netblocks.map (fun x => pfxOfNetblock (pyStr x)) else []

/- ## Raw log rows and `_process_log_file` (lines 75-118) -/

/-- One row of a raw daily log CSV; columns that can be `NaN` are
`Option`-valued. -/
structure RawLogRow where
  ip : Option String
  date : Option String
  cik : Option Nat
  accession : Option String
  extention : Option String
  code : Option Int
  idx : Option Nat
  crawler : Option Nat
deriving DecidableEq

/-- Line 81: `~(logs['crawler'] == 1)` (a `NaN` flag compares unequal, so
the row is kept). -/
def keepCrawler (r : RawLogRow) : Bool :=
  !(r.crawler == some 1)

/-- Line 82: `~(logs['idx'] == 1)`. -/
def keepIdx (r : RawLogRow) : Bool :=
  !(r.idx == some 1)

/-- Line 83: `~(logs['code'] < 300)` (a `NaN` code compares `False`, so
the row is kept). -/
def keepCode (r : RawLogRow) : Bool :=
  !(pyLtNum r.code 300)

/-- Line 85: `dropna(subset=['cik', 'accession', 'date', 'ip'])`. -/
def hasKeyFields (r : RawLogRow) : Bool :=
  r.cik.isSome && r.accession.isSome && r.date.isSome && r.ip.isSome

/-- Lines 80-85: the boolean-mask selection followed by `dropna`. -/
def filterRows (rows : List RawLogRow) : List RawLogRow :=
  (rows.filter (fun r => keepCrawler r && keepIdx r && keepCode r)).filter
    (fun r => hasKeyFields r)

/-- Line 92: a row's address matches when it starts with any loaded
prefix. -/
def ipHit (prefixes : List String) (ip : Option String) : Bool :=
  prefixes.any (fun p => pyStartsWith (pyStr ip) p)

/-- Lines 91-93: the IP-filter step; `if self.target_ip_prefixes:` skips
it entirely when the loaded prefix list is empty. -/
def applyIpFilter (prefixes : List String) (rows : List RawLogRow) : List RawLogRow :=
  if prefixes.isEmpty then rows else rows.filter (fun r => ipHit prefixes r.ip)

/-- Line 103: `str(x).split('.')[-1].lower()` — the derived file type of
a row's `extention` cell. -/
def fileExtention (x : Option String) : String :=
  pyLower (afterLast '.' (pyStr x))

/-- Line 105: `(extention == 'htm').astype(int)`. -/
def htmFlag (e : String) : Nat :=
  if e = ("htm") then 1 else 0

/-- Line 106: `(extention == 'txt').astype(int)`. -/
def txtFlag (e : String) : Nat :=
  if e = ("txt") then 1 else 0

/-- Line 107: `(extention == 'xbrl').astype(int)`. -/
def xbrlFlag (e : String) : Nat :=
  if e = ("xbrl") then 1 else 0

/-- Line 108: `np.where(extention.isin(['htm', 'txt', 'xbrl']), 0, 1)`. -/
def otherFlag (e : String) : Nat :=
  if e = ("htm") ∨ e = ("txt") ∨ e = ("xbrl") then 0 else 1

/-- The `groupby` key of line 110 (after `cik.astype(int)` on line 102);
the fields are all present for rows that survived `dropna`. -/
def rowKey (r : RawLogRow) : String × Nat × String :=
  (r.date.getD (""), r.cik.getD 0, r.accession.getD (""))

/-- One aggregated output row of `_process_log_file`
(columns of line 113). -/
structure AggRow where
  date : String
  cik : Nat
  accession : String
  nr_total : Nat
  htm : Nat
  txt : Nat
  xbrl : Nat
  other : Nat
deriving DecidableEq

/-- The aggregate of one `groupby` group: the four category indicators
summed over the group (line 110) and their total (line 111). -/
def aggForKey (rows : List RawLogRow) (k : String × Nat × String) : AggRow :=
  let group := rows.filter (fun r => decide (rowKey r = k))
  let h := (group.map (fun r => htmFlag (fileExtention r.extention))).sum
  let t := (group.map (fun r => txtFlag (fileExtention r.extention))).sum
  let x := (group.map (fun r => xbrlFlag (fileExtention r.extention))).sum
  let o := (group.map (fun r => otherFlag (fileExtention r.extention))).sum
  ⟨k.1, k.2.1, k.2.2, h + t + x + o, h, t, x, o⟩

/-- Lines 110-111: group the retained rows by `(date, cik, accession)`
and sum the indicators per group (one output row per distinct key). -/
def aggregate (rows : List RawLogRow) : List AggRow :=
  (pyDropDuplicates (rows.map rowKey)).map (aggForKey rows)

/-- `_process_log_file` on the rows of one CSV (lines 80-114): filtering,
optional IP filtering with the early empty returns, then aggregation. -/
def processLogFile (prefixes : List String) (rows : List RawLogRow) : List AggRow :=
  if (filterRows rows).isEmpty then []
  else if (applyIpFilter prefixes (filterRows rows)).isEmpty then []
  else aggregate (applyIpFilter prefixes (filterRows rows))

/- ## Master index build (`run_master_index_download`, lines 180-257) -/

/-- One parsed row of a quarterly `master.idx` table (`dtype=str`, so
every cell is a string or `NaN`). -/
structure MasterRawRow where
  cik : Option String
  formType : Option String
  dateFiled : Option String
  filename : Option String
deriving DecidableEq

/-- One row of the finalized master index (line 250): form type, filing
date and the derived join key `acc_path`. -/
structure IndexEntry where
  formType : Option String
  dateFiled : Option String
  accPath : String
deriving DecidableEq

/-- Line 249: `str(x).split('.')[0]` — the index-side join key derived
from the `Filename` column. -/
def indexAccPath (filename : Option String) : String :=
  beforeFirst '.' (pyStr filename)

/-- The projection of lines 249-250: one concatenated-index row mapped to
its `(Form Type, Date Filed, acc_path)` entry. -/
def mkIndexEntry (r : MasterRawRow) : IndexEntry :=
  ⟨r.formType, r.dateFiled, indexAccPath r.filename⟩

/-- Line 217's guard: Python `cik and cik.isdigit()` on the first row's
CIK cell (a missing cell is treated as failing the check). -/
def pyCikDigits : Option String → Bool
  | none => false
  | some s => !s.isEmpty && s.toList.all Char.isDigit

/-- Lines 217-220: drop an extraneous non-data first row when the first
value of the `CIK` column is not purely numeric. -/
def dropExtraHeaderRow : List MasterRawRow → List MasterRawRow
  | [] => []
  | r :: rest => if pyCikDigits r.cik then r :: rest else rest

/-- The externally-observable outcome of one fetch+parse attempt for a
quarter: the download fails (line 233), parsing raises (line 224), the
expected columns are missing (line 213), or a table is parsed. -/
inductive AttemptOutcome where
  | downloadFail
  | parseFail
  | missingCols
  | parsed (df : List MasterRawRow)

/-- The result of the retry loop for one quarter: the accumulated table
(if any), the number of fetch+parse attempts made, and the list of
backoff sleeps (in time units) taken between attempts. -/
structure QuarterResult where
  result : Option (List MasterRawRow)
  attempts : Nat
  sleeps : List Nat
deriving DecidableEq

/-- Lines 191-240: the `while retries < max_retries` loop, driven by the
oracle of attempt outcomes. `fuel` is the number of attempts still
allowed (`max_retries - retries`). A parsed table is appended after the
extra-header check and the loop breaks; missing columns break without
retrying; a failed download or a parse fault consumes a retry and, when
attempts remain, sleeps 2 time units before the next attempt. -/
def retryLoop (oracle : Nat → AttemptOutcome) (ix : Nat) : Nat → QuarterResult
  | 0 => ⟨none, 0, []⟩
  | fuel + 1 =>
    match oracle ix with
    | AttemptOutcome.parsed df => ⟨some (dropExtraHeaderRow df), 1, []⟩
    | AttemptOutcome.missingCols => ⟨none, 1, []⟩
    | AttemptOutcome.downloadFail =>
      if fuel = 0 then ⟨none, 1, []⟩
      else
        ⟨(retryLoop oracle (ix + 1) fuel).result, (retryLoop oracle (ix + 1) fuel).attempts + 1,
          2 :: (retryLoop oracle (ix + 1) fuel).sleeps⟩
    | AttemptOutcome.parseFail =>
      if fuel = 0 then ⟨none, 1, []⟩
      else
        ⟨(retryLoop oracle (ix + 1) fuel).result, (retryLoop oracle (ix + 1) fuel).attempts + 1,
          2 :: (retryLoop oracle (ix + 1) fuel).sleeps⟩

/-- Line 192: `max_retries = 3`. -/
def maxRetries : Nat := 3

/-- The retry loop for one `(year, quarter)` pair, starting with
`retries = 0`. -/
def runQuarter (oracle : Nat → AttemptOutcome) : QuarterResult :=
  retryLoop oracle 0 maxRetries

/-- The `all_index_dfs` accumulator (lines 183, 222): the tables of the
quarters whose retry loop succeeded, in order. -/
def collectQuarters (quarters : List (Nat → AttemptOutcome)) : List (List MasterRawRow) :=
  quarters.filterMap (fun q => (runQuarter q).result)

/-- Lines 246-251: concatenate the accumulated tables, derive `acc_path`,
project to the three columns and drop exact-duplicate rows. -/
def finalizeIndex (dfs : List (List MasterRawRow)) : List IndexEntry :=
  pyDropDuplicates ((dfs.flatMap (fun d => d)).map mkIndexEntry)

/-- `run_master_index_download` over the quarters of the configured
years, with downloads and parses supplied by per-quarter oracles
(lines 242-257): an explicit empty result when nothing was accumulated,
otherwise the finalized index. -/
def runMasterIndexDownload (quarters : List (Nat → AttemptOutcome)) : List IndexEntry :=
  if (collectQuarters quarters).isEmpty then [] else finalizeIndex (collectQuarters quarters)

/- ## Reconciliation merge (`merge_logs_and_index`, lines 259-332) -/

/-- Line 295: the log-side join key
`f"edgar/data/{cik}/{accession.replace('-', '')}"`. -/
def logAccPath (cik : Nat) (accession : String) : String :=
  ("edgar/data/") ++ Nat.repr cik ++ ("/") ++ removeDashes accession

/-- One row of the merged output: the aggregated-log fields plus the
(possibly unresolved) `Form Type` and `Date Filed` brought in by the
left join, under their renamed output names (line 312). -/
structure MergedRow where
  date : String
  cik : Nat
  accession : String
  nr_total : Nat
  htm : Nat
  txt : Nat
  xbrl : Nat
  other : Nat
  form : Option String
  filing_date : Option String
deriving DecidableEq

/-- Line 297: the left-join rows produced by one aggregated log row —
one output row per matching master-index entry, or a single row with
unresolved (`NaN`) form and filing date when no entry matches. -/
def mergeRowsFor (master : List IndexEntry) (a : AggRow) : List MergedRow :=
  if (master.filter (fun e => decide (e.accPath = logAccPath a.cik a.accession))).isEmpty then
    [⟨a.date, a.cik, a.accession, a.nr_total, a.htm, a.txt, a.xbrl, a.other, none, none⟩]
  else
    (master.filter (fun e => decide (e.accPath = logAccPath a.cik a.accession))).map (fun e =>
      ⟨a.date, a.cik, a.accession, a.nr_total, a.htm, a.txt, a.xbrl, a.other,
        e.formType, e.dateFiled⟩)

/-- Stable insertion of one element into a sorted list. -/
def insertLeSorted {α : Type} (le : α → α → Bool) (x : α) : List α → List α
  | [] => [x]
  | y :: ys => if le y x then y :: insertLeSorted le x ys else x :: y :: ys

/-- Insertion sort, the model of `sort_values` (line 316). -/
def sortByLe {α : Type} (le : α → α → Bool) : List α → List α
  | [] => []
  | x :: xs => insertLeSorted le x (sortByLe le xs)

/-- The `sort_values(['cik', 'date', 'form'])` order of line 316 (the
`form` column is always resolved at that point, a missing one sorts
first). -/
def mergedLe (a b : MergedRow) : Bool :=
  if a.cik ≠ b.cik then decide (a.cik < b.cik)
  else if a.date ≠ b.date then pyStrLt a.date b.date
  else pyStrLt (pyStr a.form) (pyStr b.form)

/-- `merge_logs_and_index` on the concatenated aggregated rows of all
years (lines 259-316): fail fast on an empty master index, normalize the
accession (`\.0$` strip, line 292), derive the join key (line 295),
left-join against the master index (line 297), drop rows with an
unresolved form type or filing date (line 305), and sort (line 316). -/
def mergeLogs (master : List IndexEntry) (logs : List AggRow) : List MergedRow :=
  if master.isEmpty then []
  else
    sortByLe mergedLe
      (((logs.map (fun a => { a with accession := stripDot0 a.accession })).flatMap
        (fun a => mergeRowsFor master a)).filter
        (fun m => m.form.isSome && m.filing_date.isSome))

/- ## Helper lemmas -/

theorem mem_dedupFirst {α : Type} [DecidableEq α] (a : α) (l : List α) :
    ∀ seen : List α, a ∈ dedupFirst seen l ↔ (a ∈ l ∧ a ∉ seen) := by
  induction l with
  | nil => simp [dedupFirst]
  | cons x xs ih =>
    intro seen
    by_cases hseen : x ∈ seen
    · rw [dedupFirst, if_pos hseen, ih seen]
      simp only [List.mem_cons]
      constructor
      · tauto
      · rintro ⟨rfl | h, hs⟩
        · exact absurd hseen hs
        · exact ⟨h, hs⟩
    · rw [dedupFirst, if_neg hseen]
      simp only [List.mem_cons, ih (x :: seen), List.mem_cons]
      constructor
      · rintro (rfl | ⟨h, hs⟩)
        · exact ⟨Or.inl rfl, hseen⟩
        · exact ⟨Or.inr h, fun hs2 => hs (Or.inr hs2)⟩
      · rintro ⟨rfl | h, hs⟩
        · exact Or.inl rfl
        · by_cases hax : a = x
          · exact Or.inl hax
          · exact Or.inr ⟨h, fun hc => hc.elim hax hs⟩

theorem mem_pyDropDuplicates {α : Type} [DecidableEq α] (a : α) (l : List α) :
    a ∈ pyDropDuplicates l ↔ a ∈ l := by
  rw [pyDropDuplicates, mem_dedupFirst]
  simp

theorem nodup_dedupFirst {α : Type} [DecidableEq α] (l : List α) :
    ∀ seen : List α, (dedupFirst seen l).Nodup := by
  induction l with
  | nil => intro seen; simp [dedupFirst]
  | cons x xs ih =>
    intro seen
    by_cases hseen : x ∈ seen
    · rw [dedupFirst, if_pos hseen]; exact ih seen
    · rw [dedupFirst, if_neg hseen]
      refine List.nodup_cons.mpr ⟨?_, ih _⟩
      rw [mem_dedupFirst]
      rintro ⟨_, hnot⟩
      exact hnot (List.mem_cons_self x seen)

theorem nodup_pyDropDuplicates {α : Type} [DecidableEq α] (l : List α) :
    (pyDropDuplicates l).Nodup :=
  nodup_dedupFirst l []

theorem mem_insertLeSorted {α : Type} (le : α → α → Bool) (x a : α) (l : List α) :
    a ∈ insertLeSorted le x l ↔ a = x ∨ a ∈ l := by
  induction l with
  | nil => simp [insertLeSorted]
  | cons y ys ih =>
    simp only [insertLeSorted]
    split
    · simp only [List.mem_cons, ih]
      tauto
    · simp [List.mem_cons]

theorem mem_sortByLe {α : Type} (le : α → α → Bool) (a : α) (l : List α) :
    a ∈ sortByLe le l ↔ a ∈ l := by
  induction l with
  | nil => simp [sortByLe]
  | cons x xs ih => simp [sortByLe, mem_insertLeSorted, ih]

theorem dropLast_dropLast_nil {α : Type} (l : List α) (h : l.length ≤ 2) :
    l.dropLast.dropLast = [] := by
  rcases l with _ | ⟨a, _ | ⟨b, _ | ⟨c, t⟩⟩⟩
  · rfl
  · rfl
  · rfl
  · simp at h

/- ## C7: loading the IP allow-list degrades to an empty list, and an
empty prefix list makes IP filtering a no-op -/

/-- C7: loading the IP allow-list never raises: it returns an empty
prefix list whenever the path is absent, the file is missing, the
required `netblock` column is absent, or parsing fails; and when the
loaded prefix list is empty, the IP filtering step is a no-op. -/
theorem load_ip_list_total_and_empty_is_noop :
    loadTargetIpPrefixes IpListSource.noPath = [] ∧
    loadTargetIpPrefixes IpListSource.fileMissing = [] ∧
    loadTargetIpPrefixes IpListSource.readFail = [] ∧
    (∀ (cols : List String) (netblocks : List (Option String)),
      ("netblock") ∉ cols → loadTargetIpPrefixes (IpListSource.table cols netblocks) = []) ∧
    (∀ rows : List RawLogRow, applyIpFilter [] rows = rows) := by
  refine ⟨rfl, rfl, rfl, ?_, ?_⟩
  · intro cols netblocks hcol
    simp [loadTargetIpPrefixes, hcol]
  · intro rows
    rfl

/-- C7 witness: the missing-column case and the no-op case at concrete
inputs. -/
theorem load_ip_list_total_witness :
    loadTargetIpPrefixes (IpListSource.table [("block")] [some (("1.2.3.0/24"))]) = [] ∧
    applyIpFilter [] [] = ([] : List RawLogRow) :=
  ⟨load_ip_list_total_and_empty_is_noop.2.2.2.1 [("block")] [some (("1.2.3.0/24"))] (by decide),
    load_ip_list_total_and_empty_is_noop.2.2.2.2 []⟩

/- ## C8: file-type derivation and the four category indicators -/

/-- C8: for every retained log row the file type is derived by
lower-casing the substring of the extension field after its final `.`,
and exactly one of the four category indicators is set to 1; `other` is 1
iff the derived extension is none of `htm`, `txt`, `xbrl`. -/
theorem extension_classification_exactly_one (x : Option String) :
    fileExtention x = pyLower (afterLast '.' (pyStr x)) ∧
    htmFlag (fileExtention x) + txtFlag (fileExtention x) + xbrlFlag (fileExtention x) +
      otherFlag (fileExtention x) = 1 ∧
    (otherFlag (fileExtention x) = 1 ↔
      ¬(fileExtention x = ("htm") ∨ fileExtention x = ("txt") ∨ fileExtention x = ("xbrl"))) := by
  refine ⟨rfl, ?_, ?_⟩
  · by_cases h1 : fileExtention x = ("htm") <;>
      by_cases h2 : fileExtention x = ("txt") <;>
      by_cases h3 : fileExtention x = ("xbrl") <;>
      simp_all [htmFlag, txtFlag, xbrlFlag, otherFlag]
  · by_cases h : fileExtention x = ("htm") ∨ fileExtention x = ("txt") ∨
      fileExtention x = ("xbrl") <;> simp [otherFlag, h]

/- ## C9: missing flags or status code are retained by the filters -/

/-- C9: a raw log row whose crawler flag, index-page flag, or HTTP status
code is missing is retained by the corresponding filter condition: the
crawler and index-page conditions reject only rows whose flag equals 1,
the status-code condition rejects only rows whose code is present and
below 300, and a row passing all the mask conditions and `dropna` is in
the filtered result. -/
theorem missing_flags_retained (rows : List RawLogRow) (r : RawLogRow) (h : r ∈ rows) :
    (r.crawler = none → keepCrawler r = true) ∧
    (r.idx = none → keepIdx r = true) ∧
    (r.code = none → keepCode r = true) ∧
    (keepCrawler r = false → r.crawler = some 1) ∧
    (keepIdx r = false → r.idx = some 1) ∧
    (keepCode r = false → ∃ c, r.code = some c ∧ c < 300) ∧
    (keepCrawler r = true → keepIdx r = true → keepCode r = true →
      hasKeyFields r = true → r ∈ filterRows rows) := by
  refine ⟨?_, ?_, ?_, ?_, ?_, ?_, ?_⟩
  · intro hc; simp [keepCrawler, hc]
  · intro hi; simp [keepIdx, hi]
  · intro hco; simp [keepCode, pyLtNum, hco]
  · intro hc
    rcases hr : r.crawler with _ | v
    · simp [keepCrawler, hr] at hc
    · simp [keepCrawler, hr] at hc
      simp [hc]
  · intro hi
    rcases hr : r.idx with _ | v
    · simp [keepIdx, hr] at hi
    · simp [keepIdx, hr] at hi
      simp [hi]
  · intro hco
    rcases hr : r.code with _ | c
    · simp [keepCode, pyLtNum, hr] at hco
    · simp [keepCode, pyLtNum, hr] at hco
      exact ⟨c, rfl, hco⟩
  · intro h1 h2 h3 h4
    unfold filterRows
    rw [List.mem_filter, List.mem_filter]
    exact ⟨⟨h, by simp [h1, h2, h3]⟩, h4⟩

/-- A raw row with every flag and the status code missing but all four
key fields present. -/
def allNoneFlagsRow : RawLogRow :=
  ⟨some (("8.8.8.abc")), some (("2011-03-01")), some 10000,
    some (("0000010000-11-000001")), some (("a.htm")), none, none, none⟩

/-- C9 witness: the all-missing-flags row is kept by every filter
condition and survives the whole filter stage. -/
theorem missing_flags_retained_witness :
    keepCrawler allNoneFlagsRow = true ∧ keepIdx allNoneFlagsRow = true ∧
    keepCode allNoneFlagsRow = true ∧ allNoneFlagsRow ∈ filterRows [allNoneFlagsRow] :=
  have hall := missing_flags_retained [allNoneFlagsRow] allNoneFlagsRow (by decide)
  ⟨hall.1 rfl, hall.2.1 rfl, hall.2.2.1 rfl,
    hall.2.2.2.2.2.2 (hall.1 rfl) (hall.2.1 rfl) (hall.2.2.1 rfl) (by decide)⟩

/- ## C10: a short netblock entry yields the empty prefix and disables
IP-based exclusion -/

/-- C10: if a configured netblock entry has fewer than three characters
before its first `/`, its derived prefix is the empty string, and a
prefix list containing that empty prefix makes the IP filter keep every
row. -/
theorem short_netblock_disables_ip_filter (nb : String) (prefixes : List String)
    (rows : List RawLogRow) (hlen : (beforeFirst '/' nb).toList.length < 3)
    (hmem : pfxOfNetblock nb ∈ prefixes) :
    pfxOfNetblock nb = ("") ∧ applyIpFilter prefixes rows = rows := by
  have hempty : pfxOfNetblock nb = ("") := by
    unfold pfxOfNetblock dropLast2
    rw [dropLast_dropLast_nil _ (by omega)]
  refine ⟨hempty, ?_⟩
  rw [hempty] at hmem
  unfold applyIpFilter
  rcases prefixes with _ | ⟨p, ps⟩
  · simp at hmem
  · rw [if_neg (by simp)]
    rw [List.filter_eq_self]
    intro r _
    apply List.any_eq_true.mpr
    exact ⟨(""), hmem, by simp [pyStartsWith]⟩

/-- C10 witness: the netblock entry `1/24` has one character before its
`/`, derives the empty prefix, and with it loaded the filter keeps the
example row. -/
theorem short_netblock_disables_ip_filter_witness :
    ((beforeFirst '/' ("1/24")).toList.length < 3) ∧
    pfxOfNetblock ("1/24") = ("") ∧
    applyIpFilter [pfxOfNetblock ("1/24")] [allNoneFlagsRow] = [allNoneFlagsRow] :=
  ⟨by decide, short_netblock_disables_ip_filter ("1/24") [pfxOfNetblock ("1/24")]
    [allNoneFlagsRow] (by decide) (by simp)⟩

/- ## C3: the filter stage keeps exactly the rows passing all conditions -/

theorem filterRows_eq_single_pass (rows : List RawLogRow) :
    filterRows rows =
      rows.filter (fun r => keepCrawler r && keepIdx r && keepCode r && hasKeyFields r) := by
  unfold filterRows
  rw [List.filter_filter]
  apply List.filter_congr
  intro r _
  cases hc : keepCrawler r <;> cases hi : keepIdx r <;> cases hco : keepCode r <;>
    cases hk : hasKeyFields r <;> rfl

theorem crawler_row_never_contributes (prefixes : List String) (rows : List RawLogRow) :
    processLogFile prefixes rows =
      processLogFile prefixes (rows.filter (fun r => !(r.crawler == some 1))) := by
  have hfilter : filterRows (rows.filter (fun r => !(r.crawler == some 1))) = filterRows rows := by
    rw [filterRows_eq_single_pass, filterRows_eq_single_pass, List.filter_filter]
    apply List.filter_congr
    intro r _
    cases hc : (r.crawler == some 1) <;> simp [keepCrawler, hc]
  unfold processLogFile
  rw [hfilter]

/-- C3: log-row filtering keeps exactly the raw rows passing all of:
crawler flag not set, index-page flag not set, status code not below 300,
and none of the cik, accession, date, ip fields missing; and rows with
the crawler flag set (in particular one with `code=200, crawler=1`) never
contribute to the aggregated output. -/
theorem filter_keeps_exactly_passing_rows (prefixes : List String) (rows : List RawLogRow) :
    (filterRows rows =
      rows.filter (fun r => keepCrawler r && keepIdx r && keepCode r && hasKeyFields r)) ∧
    (processLogFile prefixes rows =
      processLogFile prefixes (rows.filter (fun r => !(r.crawler == some 1)))) :=
  ⟨filterRows_eq_single_pass rows, crawler_row_never_contributes prefixes rows⟩

/- ## C4 and C2: the end-to-end aggregation scenario and its invariants -/

/-- A raw htm-extension row for the two-row scenario, with the given
status code. -/
def scenarioHtmRow (code : Int) : RawLogRow :=
  ⟨some (("8.8.8.abc")), some (("2011-03-01")), some 10000,
    some (("0000010000-11-000001")), some (("htm")), some code, some 0, some 0⟩

/-- A raw xml-extension row for the two-row scenario, with the given
status code. -/
def scenarioXmlRow (code : Int) : RawLogRow :=
  ⟨some (("8.8.8.abc")), some (("2011-03-01")), some 10000,
    some (("0000010000-11-000001")), some (("xml")), some code, some 0, some 0⟩

/-- The single aggregated row the two-row scenario collapses to. -/
def scenarioAggRow : AggRow :=
  ⟨("2011-03-01"), 10000, ("0000010000-11-000001"), 2, 1, 0, 0, 1⟩

/-- C4 counterexample: with `code=200`, as the claim literally states,
both rows are dropped by the `~(code < 300)` mask (line 83), so the
aggregation output is empty rather than one row with `nr_total=2`. -/
theorem two_row_scenario_code200_empty :
    processLogFile [] [scenarioHtmRow 200, scenarioXmlRow 200] = [] := by decide

/-- C4 (amended): with a status code not below 300 (here 304), two rows
with `crawler=0, idx=0`, the same date, filer id and accession, and
extensions `htm` and `xml`, aggregate to exactly one row with
`nr_total=2, htm=1, other=1, txt=0, xbrl=0`. -/
theorem two_row_scenario_aggregates :
    processLogFile [] [scenarioHtmRow 304, scenarioXmlRow 304] = [scenarioAggRow] := by decide

theorem aggregate_nr_total (logs : List RawLogRow) (a : AggRow) (ha : a ∈ aggregate logs) :
    a.nr_total = a.htm + a.txt + a.xbrl + a.other := by
  obtain ⟨k, hk, rfl⟩ := List.mem_map.mp ha
  rfl

theorem aggregate_keys_nodup (logs : List RawLogRow) :
    ((aggregate logs).map (fun a => (a.date, a.cik, a.accession))).Nodup := by
  unfold aggregate
  rw [List.map_map]
  have hcomp : ((fun a : AggRow => (a.date, a.cik, a.accession)) ∘ aggForKey logs) = id :=
    funext fun k => rfl
  rw [hcomp, List.map_id]
  exact nodup_pyDropDuplicates _

/-- C2: every aggregated output row of the log-processing step satisfies
`nr_total = htm + txt + xbrl + other`, and no two output rows share the
same `(date, cik, accession)` key. -/
theorem aggregation_invariants (prefixes : List String) (rows : List RawLogRow) :
    (∀ a ∈ processLogFile prefixes rows,
      a.nr_total = a.htm + a.txt + a.xbrl + a.other) ∧
    ((processLogFile prefixes rows).map (fun a => (a.date, a.cik, a.accession))).Nodup := by
  constructor
  · intro a ha
    unfold processLogFile at ha
    split at ha
    · simp at ha
    · split at ha
      · simp at ha
      · exact aggregate_nr_total _ a ha
  · unfold processLogFile
    split
    · simp
    · split
      · simp
      · exact aggregate_keys_nodup _

/-- C2 witness: the invariant instantiated on the concrete two-row
scenario. -/
theorem aggregation_invariants_witness :
    scenarioAggRow.nr_total =
      scenarioAggRow.htm + scenarioAggRow.txt + scenarioAggRow.xbrl + scenarioAggRow.other :=
  (aggregation_invariants [] [scenarioHtmRow 304, scenarioXmlRow 304]).1 scenarioAggRow (by decide)

/- ## C1: join-key derivation agrees on both sides -/

theorem toDigitsCore_all_digits (fuel n : Nat) (ds : List Char)
    (h : ∀ c ∈ ds, c.isDigit) : ∀ c ∈ Nat.toDigitsCore 10 fuel n ds, c.isDigit := by
  induction fuel generalizing n ds with
  | zero => simpa [Nat.toDigitsCore] using h
  | succ fuel ih =>
    rw [Nat.toDigitsCore]
    have hd : (Nat.digitChar (n % 10)).isDigit := by
      have hlt : n % 10 < 10 := Nat.mod_lt _ (by norm_num)
      interval_cases h : n % 10 <;> decide
    split
    · intro c hc
      rcases List.mem_cons.mp hc with rfl | hc
      · exact hd
      · exact h c hc
    · apply ih
      intro c hc
      rcases List.mem_cons.mp hc with rfl | hc
      · exact hd
      · exact h c hc

theorem repr_all_digits (n : Nat) : ∀ c ∈ (Nat.repr n).toList, c.isDigit := by
  have h := toDigitsCore_all_digits (n + 1) n [] (by simp)
  simpa [Nat.repr, Nat.toDigits, String.toList, List.asString] using h

theorem takeWhile_append_stop (p : Char → Bool) (l1 l2 : List Char) (c0 : Char)
    (h : ∀ c ∈ l1, p c) (h0 : ¬ p c0) : (l1 ++ c0 :: l2).takeWhile p = l1 := by
  induction l1 with
  | nil => simp [List.takeWhile_cons, h0]
  | cons x xs ih =>
    have hx : p x := h x (by simp)
    simp only [List.cons_append, List.takeWhile_cons, hx, if_true]
    rw [ih (fun c hc => h c (by simp [hc]))]

/-- C1: for every filer id and every dash-separated accession (digits and
dashes), the log-side join key `edgar/data/{id}/{accession-without-dashes}`
(line 295) equals the index-side key derived by stripping an index
filename of the form `edgar/data/{id}/{accession-digits}.{ext}` from its
first `.` onward (line 249). -/
theorem join_key_derivations_agree (id : Nat) (acc ext : String)
    (h : ∀ c ∈ acc.toList, c.isDigit ∨ c = '-') :
    indexAccPath
      (some (("edgar/data/") ++ Nat.repr id ++ ("/") ++ removeDashes acc ++ (".") ++ ext)) =
      logAccPath id acc := by
  unfold indexAccPath pyStr beforeFirst charsBeforeFirst logAccPath
  have hdata : (("edgar/data/") ++ Nat.repr id ++ ("/") ++ removeDashes acc ++ (".") ++
      ext).toList =
      (("edgar/data/") ++ Nat.repr id ++ ("/") ++ removeDashes acc).toList ++
        '.' :: ext.toList := by
    simp [String.toList]
  rw [hdata]
  have hnodot : ∀ c ∈ (("edgar/data/") ++ Nat.repr id ++ ("/") ++ removeDashes acc).toList,
      (decide (c ≠ '.')) = true := by
    intro c hc
    simp only [String.toList, String.data_append, List.mem_append] at hc
    simp only [decide_eq_true_eq]
    rcases hc with (hc | hc) | hc
    · rcases hc with hc | hc
      · intro heq
        subst heq
        revert hc
        decide
      · have hd : c.isDigit := repr_all_digits id c hc
        intro heq
        subst heq
        simp [Char.isDigit] at hd
    · intro heq
      subst heq
      revert hc
      decide
    · have hc2 : c ∈ acc.toList ∧ (decide (c ≠ '-')) = true := by
        simpa [removeDashes, String.toList, List.mem_filter] using hc
      rcases h c hc2.1 with hd | hdash
      · intro heq
        subst heq
        simp [Char.isDigit] at hd
      · exfalso
        rw [hdash] at hc2
        simpa using hc2.2
  rw [takeWhile_append_stop _ _ _ _ hnodot (by decide)]
  rfl

/-- C1 witness: the two derivations agree on a concrete filer id,
accession and extension. -/
theorem join_key_derivations_agree_witness :
    (∀ c ∈ (("0000886982-11-000001") : String).toList, c.isDigit ∨ c = '-') ∧
    indexAccPath
      (some (("edgar/data/") ++ Nat.repr 886982 ++ ("/") ++
        removeDashes ("0000886982-11-000001") ++ (".") ++ ("txt"))) =
      logAccPath 886982 ("0000886982-11-000001") :=
  ⟨by decide, join_key_derivations_agree 886982 ("0000886982-11-000001") ("txt") (by decide)⟩

/- ## C5: the merge fails fast on an empty index and drops unresolved
rows -/

/-- C5: the reconciliation merge returns an empty result when the master
index is empty, and every emitted merged row carries a resolved form type
and filing date coming from a master-index entry whose join key matches
the row's derived key — a log row whose key matches no entry is dropped,
never emitted with empty fields. -/
theorem merge_empty_index_and_unresolved_dropped :
    (∀ logs : List AggRow, mergeLogs [] logs = []) ∧
    (∀ (master : List IndexEntry) (logs : List AggRow) (m : MergedRow),
      m ∈ mergeLogs master logs →
      ∃ f d, m.form = some f ∧ m.filing_date = some d ∧
        ∃ e ∈ master, e.accPath = logAccPath m.cik m.accession ∧
          e.formType = some f ∧ e.dateFiled = some d) := by
  constructor
  · intro logs
    rfl
  · intro master logs m hm
    unfold mergeLogs at hm
    by_cases hmaster : master.isEmpty
    · rw [if_pos hmaster] at hm
      simp at hm
    · rw [if_neg hmaster, mem_sortByLe, List.mem_filter] at hm
      obtain ⟨hjoin, hsome⟩ := hm
      rw [List.mem_flatMap] at hjoin
      obtain ⟨a, _, hma⟩ := hjoin
      unfold mergeRowsFor at hma
      by_cases hhits :
        (master.filter (fun e => decide (e.accPath = logAccPath a.cik a.accession))).isEmpty
      · rw [if_pos hhits] at hma
        rw [List.mem_singleton] at hma
        subst hma
        simp at hsome
      · rw [if_neg hhits, List.mem_map] at hma
        obtain ⟨e, he, rfl⟩ := hma
        rw [List.mem_filter] at he
        obtain ⟨heM, heq⟩ := he
        simp only [decide_eq_true_eq] at heq
        simp only [Bool.and_eq_true, Option.isSome_iff_exists] at hsome
        obtain ⟨⟨f, hf⟩, ⟨d, hd⟩⟩ := hsome
        exact ⟨f, d, hf, hd, e, heM, heq, hf, hd⟩

/-- The master-index entry matching the two-row scenario's aggregate. -/
def scenarioIndexEntry : IndexEntry :=
  ⟨some (("10-K")), some (("2011-02-15")), logAccPath 10000 (("0000010000-11-000001"))⟩

/-- The merged row the scenario aggregate and index entry produce. -/
def scenarioMergedRow : MergedRow :=
  ⟨("2011-03-01"), 10000, ("0000010000-11-000001"), 2, 1, 0, 0, 1,
    some (("10-K")), some (("2011-02-15"))⟩

/-- C5 witness: the concrete merged row is emitted with its resolved
form and filing date tied to a matching master-index entry. -/
theorem merge_unresolved_dropped_witness :
    ∃ f d, scenarioMergedRow.form = some f ∧ scenarioMergedRow.filing_date = some d ∧
      ∃ e ∈ [scenarioIndexEntry],
        e.accPath = logAccPath scenarioMergedRow.cik scenarioMergedRow.accession ∧
        e.formType = some f ∧ e.dateFiled = some d :=
  merge_empty_index_and_unresolved_dropped.2 [scenarioIndexEntry] [scenarioAggRow]
    scenarioMergedRow (by decide)

/- ## C6: bounded retries with fixed backoff, and failure isolation -/

theorem retryLoop_attempts_le (oracle : Nat → AttemptOutcome) (fuel : Nat) :
    ∀ ix : Nat, (retryLoop oracle ix fuel).attempts ≤ fuel := by
  induction fuel with
  | zero => intro ix; simp [retryLoop]
  | succ fuel ih =>
    intro ix
    rw [retryLoop]
    split
    · simp
    · simp
    · split
      · simp
      · simpa using Nat.succ_le_succ (ih (ix + 1))
    · split
      · simp
      · simpa using Nat.succ_le_succ (ih (ix + 1))

theorem retryLoop_sleeps_two (oracle : Nat → AttemptOutcome) (fuel : Nat) :
    ∀ ix : Nat, ∀ s ∈ (retryLoop oracle ix fuel).sleeps, s = 2 := by
  induction fuel with
  | zero => intro ix s hs; simp [retryLoop] at hs
  | succ fuel ih =>
    intro ix s hs
    rw [retryLoop] at hs
    split at hs
    · simp at hs
    · simp at hs
    · split at hs
      · simp at hs
      · simp only [List.mem_cons] at hs
        rcases hs with rfl | hs
        · rfl
        · exact ih (ix + 1) s hs
    · split at hs
      · simp at hs
      · simp only [List.mem_cons] at hs
        rcases hs with rfl | hs
        · rfl
        · exact ih (ix + 1) s hs

/-- C6: one quarter's fetch/parse is attempted at most `max_retries = 3`
times with a fixed backoff of 2 time units between attempts; a quarter
whose retries are exhausted contributes nothing and does not disturb the
other quarters; and every row of every successfully fetched and verified
quarter reaches the final concatenated (and deduplicated) index. -/
theorem index_retry_bounded_and_isolated :
    (∀ oracle : Nat → AttemptOutcome,
      (runQuarter oracle).attempts ≤ maxRetries ∧
      ∀ s ∈ (runQuarter oracle).sleeps, s = 2) ∧
    (∀ (qs1 qs2 : List (Nat → AttemptOutcome)) (q : Nat → AttemptOutcome),
      (runQuarter q).result = none →
      collectQuarters (qs1 ++ q :: qs2) = collectQuarters (qs1 ++ qs2)) ∧
    (∀ (quarters : List (Nat → AttemptOutcome)) (q : Nat → AttemptOutcome)
      (df : List MasterRawRow) (r : MasterRawRow),
      q ∈ quarters → (runQuarter q).result = some df → r ∈ df →
      mkIndexEntry r ∈ runMasterIndexDownload quarters) := by
  refine ⟨?_, ?_, ?_⟩
  · intro oracle
    exact ⟨retryLoop_attempts_le oracle maxRetries 0, retryLoop_sleeps_two oracle maxRetries 0⟩
  · intro qs1 qs2 q hq
    simp [collectQuarters, List.filterMap_append, List.filterMap_cons, hq]
  · intro quarters q df r hq hres hr
    have hdf : df ∈ collectQuarters quarters :=
      List.mem_filterMap.mpr ⟨q, hq, hres⟩
    have hne : (collectQuarters quarters).isEmpty = false := by
      rcases hlist : collectQuarters quarters with _ | ⟨x, xs⟩
      · rw [hlist] at hdf
        simp at hdf
      · rfl
    have hrun : runMasterIndexDownload quarters = finalizeIndex (collectQuarters quarters) := by
      unfold runMasterIndexDownload
      rw [hne]
      simp
    rw [hrun]
    unfold finalizeIndex
    rw [mem_pyDropDuplicates]
    exact List.mem_map.mpr ⟨r, List.mem_flatMap.mpr ⟨df, hdf, hr⟩, rfl⟩

/-- A quarter oracle whose every attempt parses successfully into a
one-row table. -/
def okQuarterOracle : Nat → AttemptOutcome :=
  fun _ => AttemptOutcome.parsed
    [⟨some (("123")), some (("10-K")), some (("2011-02-15")),
      some (("edgar/data/123/000012312311000001.txt"))⟩]

/-- A quarter oracle whose every download attempt fails. -/
def failQuarterOracle : Nat → AttemptOutcome :=
  fun _ => AttemptOutcome.downloadFail

/-- The single row of `okQuarterOracle`'s table. -/
def okQuarterRow : MasterRawRow :=
  ⟨some (("123")), some (("10-K")), some (("2011-02-15")),
    some (("edgar/data/123/000012312311000001.txt"))⟩

/-- C6 witness: the failing quarter stays within the retry bound and
drops out of the accumulated tables without disturbing them, while the
successful quarter's row reaches the final index. -/
theorem index_retry_bounded_witness :
    (runQuarter failQuarterOracle).attempts ≤ maxRetries ∧
    collectQuarters ([failQuarterOracle] ++ failQuarterOracle :: [okQuarterOracle]) =
      collectQuarters ([failQuarterOracle] ++ [okQuarterOracle]) ∧
    mkIndexEntry okQuarterRow ∈ runMasterIndexDownload [failQuarterOracle, okQuarterOracle] :=
  ⟨(index_retry_bounded_and_isolated.1 failQuarterOracle).1,
    index_retry_bounded_and_isolated.2.1 [failQuarterOracle] [okQuarterOracle]
      failQuarterOracle rfl,
    index_retry_bounded_and_isolated.2.2 [failQuarterOracle, okQuarterOracle] okQuarterOracle
      [okQuarterRow] okQuarterRow (List.mem_cons_of_mem _ (List.mem_cons_self _ _)) rfl
      (List.mem_cons_self _ _)⟩
